import Mathlib

/-!
# openstackcli: client bootstrap and subcommand dispatch

A shallow embedding of `cmd/openstackcli/main.go`.

The program is a thin driver around three collaborators that live outside the
file: the `structarg` argument parser, the `shellutils` command table and the
`openstack` client package.  Their behaviour during one process run is
collected in a record (`World`); every function of `main.go` is translated
as a pure function of that record which returns, next to its Go result, the
list of observable events it caused (writes to the two output streams and
calls into the collaborators).
-/

namespace OpenstackCli

/-! ## Values of the Go program -/

/-- A Go `error` value.  `errorf` is an error built by `fmt.Errorf` inside
`main.go`; `foreign` is an error handed back by a collaborator, identified by
a tag and carrying the text its `Error()` method returns. -/
inductive GoError where
  | errorf (msg : String)
  | foreign (tag : Nat) (msg : String)
deriving DecidableEq, Repr

/-- The `Error()` method: the text that `%s` formatting prints. -/
def GoError.Error : GoError → String
  | .errorf msg => msg
  | .foreign _ msg => msg

/-- The struct `BaseOptions` (main.go, lines 33-45). -/
structure BaseOptions where
  Debug : Bool
  Help : Bool
  AuthURL : String
  Username : String
  Password : String
  Project : String
  EndpointType : String
  DomainName : String
  ProjectDomain : String
  RegionID : String
  SUBCOMMAND : String
deriving DecidableEq, Repr

/-- The local struct `HelpOptions` (main.go, lines 61-63). -/
structure HelpOptions where
  SUBCOMMAND : String
deriving DecidableEq, Repr

/-- A non-nil `*openstack.SRegion`, identified by its address. -/
structure SRegion where
  ref : Nat
deriving DecidableEq, Repr

/-- A non-nil `*openstack.SOpenStackClient`, identified by its address. -/
structure SOpenStackClient where
  ref : Nat
deriving DecidableEq, Repr

/-- The bound options object of a sub-parser (`subparser.Options()`),
identified by its address. -/
structure SubOptions where
  ref : Nat
deriving DecidableEq, Repr

/-- The `httpproxy.Config` built in `newClient` (lines 101-105). -/
structure ProxyConfig where
  HTTPProxy : String
  HTTPSProxy : String
  NoProxy : String
deriving DecidableEq, Repr

/-- The argument of `openstack.NewOpenStackClient`: the five positional
arguments of `NewOpenstackClientConfig` followed by the values given to the
chained setters `EndpointType`, `DomainName`, `Debug` and
`CloudproviderConfig` (lines 111-127). -/
structure OpenstackClientConfig where
  authURL : String
  username : String
  password : String
  project : String
  projectDomain : String
  endpointType : String
  domainName : String
  debug : Bool
  proxy : ProxyConfig
deriving DecidableEq, Repr

/-- One positional argument of the variadic `subcmd.Invoke(...)`.  The region
argument is a pointer and may be nil. -/
inductive InvokeArg where
  | region (r : Option SRegion)
  | options (o : SubOptions)
deriving DecidableEq, Repr

/-- Observable events of a run, in program order. -/
inductive Event where
  /-- A write to the standard output stream, `fmt.Print(s)`. -/
  | stdout (s : String)
  /-- A write to the standard error stream. -/
  | stderr (s : String)
  /-- A call `subcmd.SubHelpString(name)`. -/
  | subHelpString (name : String)
  /-- A call `subcmd.GetSubParser()`. -/
  | getSubParser
  /-- A call `newClient(options)`, with the options object as it is then. -/
  | newClient (options : BaseOptions)
  /-- A call `openstack.NewOpenStackClient(cfg)`. -/
  | newOpenStackClient (cfg : OpenstackClientConfig)
  /-- A call `cli.GetRegion(id)`. -/
  | getRegion (cli : SOpenStackClient) (id : String)
  /-- A call `subcmd.Invoke(args...)`, which runs the selected callback. -/
  | invoke (args : List InvokeArg)
deriving DecidableEq, Repr

/-- How the process ends: `os.Exit(code)`, a normal return from `main`
(exit status 0), or a run-time panic (nil dereference). -/
inductive Termination where
  | exited (code : Nat)
  | returned
  | panicked
deriving DecidableEq, Repr

/-- The exit status the operating system sees. -/
def Termination.exitCode : Termination → Nat
  | .exited code => code
  | .returned => 0
  | .panicked => 2

/-- Go `len(s)` of a string: its length in bytes. -/
def len (s : String) : Nat := s.utf8ByteSize

/-! ## The collaborators -/

/-- A resolved sub-parser (`*structarg.ArgumentParser` of one subcommand). -/
structure SubParser where
  /-- Result of `subparser.Usage()`. -/
  usage : String
  /-- Result of `subparser.Options()`. -/
  options : SubOptions
deriving DecidableEq, Repr

/-- One row of `shellutils.CommandTable`: the command name and description;
the options prototype and the callback are identified by the name. -/
structure CMD where
  Command : String
  Desc : String
deriving DecidableEq, Repr

/-- Behaviour of everything outside `main.go` during one run. -/
structure World where
  /-- The function `os.Getenv`. -/
  getenv : String → String
  /-- Error result of `structarg.NewArgumentParser(&BaseOptions{}, ...)`. -/
  newArgumentParser : Option GoError
  /-- Whether `parse.GetSubcommand()` is non-nil. -/
  hasSubcommand : Bool
  /-- The slice `shellutils.CommandTable` as filled by the imported shell package. -/
  commandTable : List CMD
  /-- Error result of `subcmd.AddSubParser(v.Options, v.Command, ...)`. -/
  addSubParser : CMD → Option GoError
  /-- Error result of `parser.ParseArgs(os.Args[1:], false)`. -/
  parseArgs : Option GoError
  /-- The object `parser.Options()` as bound by `ParseArgs`. -/
  options : BaseOptions
  /-- Result of `subcmd.GetSubParser()` after parsing; `none` is nil. -/
  subparser : Option SubParser
  /-- Result of `parser.HelpString()`. -/
  helpString : String
  /-- Result of `parser.Usage()`. -/
  usage : String
  /-- Result of `subcmd.SubHelpString(name)`: the string and the error. -/
  subHelpString : String → String × Option GoError
  /-- The constant `openstack.OPENSTACK_DEFAULT_REGION`. -/
  OPENSTACK_DEFAULT_REGION : String
  /-- Result of `openstack.NewOpenStackClient(cfg)`. -/
  newOpenStackClient : OpenstackClientConfig → Except GoError SOpenStackClient
  /-- Result of `cli.GetRegion(id)`; `none` is nil. -/
  getRegion : SOpenStackClient → String → Option SRegion
  /-- Error result of `subcmd.Invoke(args...)`, i.e. of the callback. -/
  invoke : List InvokeArg → Option GoError

/-! ## The functions of main.go -/

/-- The closure registered for the `help` command (lines 64-72).  It
captures only `subcmd`, of which it uses the method `SubHelpString`, given
here as the function from a name to the returned string and error. -/
def helpCallback (SubHelpString : String → String × Option GoError) (args : HelpOptions) :
    List Event × Option GoError :=
  match SubHelpString args.SUBCOMMAND with
  | (_, some e) => ([.subHelpString args.SUBCOMMAND], some e)
  | (helpstr, none) => ([.subHelpString args.SUBCOMMAND, .stdout helpstr], none)

/-- The loop of lines 73-78: add a sub-parser per table row, stopping at the
first error. -/
def addSubParsers (w : World) : List CMD → Option GoError
  | [] => none
  | v :: rest =>
    match w.addSubParser v with
    | some e => some e
    | none => addSubParsers w rest

/-- The function `getSubcommandParser` (lines 47-80); `none` means the parser
was built.  `shellutils.R` appends the `help` row to the command table
before the table is walked. -/
def getSubcommandParser (w : World) : Option GoError :=
  match w.newArgumentParser with
  | some e => some e
  | none =>
    if !w.hasSubcommand then
      some (.errorf "No subcommand argument.")
    else
      addSubParsers w (w.commandTable ++ [⟨"help", "Show help of a subcommand"⟩])

/-- The function `showErrorAndExit` (lines 82-86): the message, a newline,
then `os.Exit(1)`. -/
def showErrorAndExit (e : GoError) : List Event × Termination :=
  ([.stderr e.Error, .stderr "\n"], .exited 1)

/-- The configuration value assembled in `newClient` (lines 101-127). -/
def clientConfig (w : World) (options : BaseOptions) : OpenstackClientConfig :=
  { authURL := options.AuthURL
    username := options.Username
    password := options.Password
    project := options.Project
    projectDomain := options.ProjectDomain
    endpointType := options.EndpointType
    domainName := options.DomainName
    debug := options.Debug
    proxy :=
      { HTTPProxy := w.getenv "HTTP_PROXY"
        HTTPSProxy := w.getenv "HTTPS_PROXY"
        NoProxy := w.getenv "NO_PROXY" } }

/-- Result of `newClient`: the events, the returned region pointer and the
returned error. -/
structure ClientResult where
  trace : List Event
  region : Option SRegion
  err : Option GoError
deriving DecidableEq, Repr

/-- The function `newClient` (lines 88-136). -/
def newClient (w : World) (options : BaseOptions) : ClientResult :=
  if len options.AuthURL == 0 then
    ⟨[], none, some (.errorf "Missing AuthURL")⟩
  else if len options.Username == 0 then
    ⟨[], none, some (.errorf "Missing Username")⟩
  else if len options.Password == 0 then
    ⟨[], none, some (.errorf "Missing Password")⟩
  else
    let cfg := clientConfig w options
    match w.newOpenStackClient cfg with
    | .error err => ⟨[.newOpenStackClient cfg], none, some err⟩
    | .ok cli =>
      match w.getRegion cli options.RegionID with
      | none =>
        ⟨[.newOpenStackClient cfg, .getRegion cli options.RegionID], none,
          some (.errorf ("No such region " ++ options.RegionID))⟩
      | some region =>
        ⟨[.newOpenStackClient cfg, .getRegion cli options.RegionID], some region, none⟩

/-- Result of `main`: the events, how the process ended, and the state of the
`BaseOptions` object at that point (`none` if no parser was built). -/
structure MainResult where
  trace : List Event
  term : Termination
  options : Option BaseOptions
deriving DecidableEq, Repr

/-- The function `main` (lines 138-178). -/
def main (w : World) : MainResult :=
  match getSubcommandParser w with
  | some e => ⟨(showErrorAndExit e).1, (showErrorAndExit e).2, none⟩
  | none =>
    let e := w.parseArgs
    let options := w.options
    if options.Help then
      ⟨[.stdout w.helpString], .returned, some options⟩
    else
      let subparser := w.subparser
      match e with
      | some e =>
        let usage :=
          match subparser with
          | some sp => sp.usage
          | none => w.usage
        ⟨[.getSubParser, .stdout usage] ++ (showErrorAndExit e).1,
          (showErrorAndExit e).2, some options⟩
      | none =>
        match subparser with
        | none => ⟨[.getSubParser], .panicked, some options⟩
        | some sp =>
          let suboptions := sp.options
          if options.SUBCOMMAND == "help" then
            match w.invoke [.options suboptions] with
            | some e =>
              ⟨[.getSubParser, .invoke [.options suboptions]] ++ (showErrorAndExit e).1,
                (showErrorAndExit e).2, some options⟩
            | none =>
              ⟨[.getSubParser, .invoke [.options suboptions]], .returned, some options⟩
          else
            let options :=
              if len options.RegionID == 0 then
                { options with RegionID := w.OPENSTACK_DEFAULT_REGION }
              else options
            let r := newClient w options
            match r.err with
            | some e =>
              ⟨[.getSubParser, .newClient options] ++ r.trace ++ (showErrorAndExit e).1,
                (showErrorAndExit e).2, some options⟩
            | none =>
              let args := [InvokeArg.region r.region, .options suboptions]
              match w.invoke args with
              | some e =>
                ⟨[.getSubParser, .newClient options] ++ r.trace ++ [.invoke args]
                    ++ (showErrorAndExit e).1,
                  (showErrorAndExit e).2, some options⟩
              | none =>
                ⟨[.getSubParser, .newClient options] ++ r.trace ++ [.invoke args],
                  .returned, some options⟩

/-! ## Projections of a trace -/

/-- The text written to the standard output stream. -/
def stdoutOf : List Event → List String
  | [] => []
  | .stdout s :: rest => s :: stdoutOf rest
  | _ :: rest => stdoutOf rest

/-- The text written to the standard error stream. -/
def stderrOf : List Event → List String
  | [] => []
  | .stderr s :: rest => s :: stderrOf rest
  | _ :: rest => stderrOf rest

/-- The argument lists of the `Invoke` calls, in order. -/
def invocationsOf : List Event → List (List InvokeArg)
  | [] => []
  | .invoke args :: rest => args :: invocationsOf rest
  | _ :: rest => invocationsOf rest

/-- The option values handed to `newClient`, in order. -/
def newClientCallsOf : List Event → List BaseOptions
  | [] => []
  | .newClient o :: rest => o :: newClientCallsOf rest
  | _ :: rest => newClientCallsOf rest

/-- Whether an event is a call into the OpenStack client package. -/
def Event.isClientCall : Event → Bool
  | .newOpenStackClient _ => true
  | .getRegion _ _ => true
  | _ => false

/-! ## Sample runs -/

/-- Options as bound for `openstackcli --auth-url ... server-list` with no
region given. -/
def sampleOptions : BaseOptions :=
  { Debug := false
    Help := false
    AuthURL := "http://keystone:5000/v3"
    Username := "admin"
    Password := "secret"
    Project := "demo"
    EndpointType := "internal"
    DomainName := "Default"
    ProjectDomain := "Default"
    RegionID := ""
    SUBCOMMAND := "server-list" }

/-- A run in which every collaborator succeeds: one registered command, a
cloud that knows the single region `RegionOne`. -/
def sampleWorld : World :=
  { getenv := fun _ => ""
    newArgumentParser := none
    hasSubcommand := true
    commandTable := [⟨"server-list", "List servers"⟩]
    addSubParser := fun _ => none
    parseArgs := none
    options := sampleOptions
    subparser := some ⟨"Usage: openstackcli server-list", ⟨1⟩⟩
    helpString := "Command-line interface to openstack API."
    usage := "Usage: openstackcli <SUBCOMMAND>"
    subHelpString := fun name =>
      if name = "server-list" then ("Usage: openstackcli server-list", none)
      else ("", some (.foreign 1 "No such command"))
    OPENSTACK_DEFAULT_REGION := "RegionOne"
    newOpenStackClient := fun _ => .ok ⟨7⟩
    getRegion := fun _ id => if id = "RegionOne" then some ⟨9⟩ else none
    invoke := fun _ => none }

/-- Options with the user name left empty. -/
def noUsernameOptions : BaseOptions :=
  { sampleOptions with Username := "" }

/-- The run of `openstackcli help server-list` with no credential set
anywhere. -/
def helpWorld : World :=
  { sampleWorld with
    options :=
      { sampleOptions with
        AuthURL := "", Username := "", Password := "", Project := "", SUBCOMMAND := "help" }
    subparser := some ⟨"Usage: openstackcli help <SUBCOMMAND>", ⟨2⟩⟩ }

/-- The run of `openstackcli --help`: the flag is bound, and parsing reports
the missing subcommand. -/
def helpFlagWorld : World :=
  { sampleWorld with
    options := { sampleOptions with Help := true, SUBCOMMAND := "" }
    parseArgs := some (.foreign 2 "Not enough arguments, missing SUBCOMMAND")
    subparser := none }

/-- The run of `openstackcli bogus`: no sub-parser is resolved. -/
def bogusWorld : World :=
  { sampleWorld with
    options := { sampleOptions with SUBCOMMAND := "" }
    parseArgs := some (.foreign 3 "Unknown subcommand bogus")
    subparser := none }

/-- The run of `openstackcli server-list --bogus`: the sub-parser is resolved
and rejects the flag. -/
def badFlagWorld : World :=
  { sampleWorld with
    parseArgs := some (.foreign 4 "Unknown optional argument --bogus") }

/-! ## Default values of the base options -/

/-- The names of the string fields of `BaseOptions` that carry a `default`
tag. -/
inductive Field where
  | AuthURL | Username | Password | Project
  | EndpointType | DomainName | ProjectDomain | RegionID
deriving DecidableEq, Repr

/-- The `default` struct tag of each field (main.go, lines 36-43). -/
def Field.defaultSpec : Field → String
  | .AuthURL => "$OPENSTACK_AUTH_URL"
  | .Username => "$OPENSTACK_USERNAME"
  | .Password => "$OPENSTACK_PASSWORD"
  | .Project => "$OPENSTACK_PROJECT"
  | .EndpointType => "$OPENSTACK_ENDPOINT_TYPE|internal"
  | .DomainName => "$OPENSTACK_DOMAIN_NAME|Default"
  | .ProjectDomain => "$OPENSTACK_PROJECT_DOMAIN|Default"
  | .RegionID => "$OPENSTACK_REGION_ID"

/-- The `metavar` struct tag of each field (lines 36-43): the name of the
environment variable. -/
def Field.metavar : Field → String
  | .AuthURL => "OPENSTACK_AUTH_URL"
  | .Username => "OPENSTACK_USERNAME"
  | .Password => "OPENSTACK_PASSWORD"
  | .Project => "OPENSTACK_PROJECT"
  | .EndpointType => "OPENSTACK_ENDPOINT_TYPE"
  | .DomainName => "OPENSTACK_DOMAIN_NAME"
  | .ProjectDomain => "OPENSTACK_PROJECT_DOMAIN"
  | .RegionID => "OPENSTACK_REGION_ID"

/-- Modelled from the spec: the resolution of a default-spec, which the
`structarg` package performs and `main.go` does not contain.  The spec, 4.1:
if the default-spec begins with `$`, split on the first `|`; look up the
environment variable named before the separator; if set and non-empty, use
it; otherwise use the text after `|` (or the empty string if no `|` is
present); if the spec does not begin with `$`, use it verbatim.  The
environment maps a name to `none` when the variable is unset. -/
def resolveDefaultSpec (env : String → Option String) (spec : String) : String :=
  match spec.data with
  | '$' :: rest =>
    let name := String.mk (rest.takeWhile (· != '|'))
    let fallback := String.mk ((rest.dropWhile (· != '|')).drop 1)
    match env name with
    | some v => if v = "" then fallback else v
    | none => fallback
  | _ => spec

/-- An environment in which only `OPENSTACK_DOMAIN_NAME` is set. -/
def sampleEnv : String → Option String :=
  fun name => if name = "OPENSTACK_DOMAIN_NAME" then some "corp" else none

/-! ## Auxiliary facts -/

theorem utf8ByteSize_go_eq_zero (cs : List Char) :
    String.utf8ByteSize.go cs = 0 ↔ cs = [] := by
  cases cs with
  | nil => simp [String.utf8ByteSize.go]
  | cons c cs =>
    have hc := Char.utf8Size_pos c
    simp [String.utf8ByteSize.go]
    omega

/-- Go `len(s) == 0` holds exactly for the empty string. -/
theorem len_eq_zero_iff (s : String) : len s = 0 ↔ s = "" := by
  cases s with
  | mk cs =>
    have h := utf8ByteSize_go_eq_zero cs
    simp only [len, String.utf8ByteSize]
    rw [h]
    constructor
    · intro h; subst h; rfl
    · intro h; exact congrArg String.data h

theorem len_beq_zero_iff (s : String) : (len s == 0) = true ↔ s = "" := by
  rw [beq_iff_eq]; exact len_eq_zero_iff s

theorem stdoutOf_append (xs ys : List Event) :
    stdoutOf (xs ++ ys) = stdoutOf xs ++ stdoutOf ys := by
  induction xs with
  | nil => rfl
  | cons x xs ih => cases x <;> simp [stdoutOf, ih]

theorem stderrOf_append (xs ys : List Event) :
    stderrOf (xs ++ ys) = stderrOf xs ++ stderrOf ys := by
  induction xs with
  | nil => rfl
  | cons x xs ih => cases x <;> simp [stderrOf, ih]

theorem invocationsOf_append (xs ys : List Event) :
    invocationsOf (xs ++ ys) = invocationsOf xs ++ invocationsOf ys := by
  induction xs with
  | nil => rfl
  | cons x xs ih => cases x <;> simp [invocationsOf, ih]

theorem newClientCallsOf_append (xs ys : List Event) :
    newClientCallsOf (xs ++ ys) = newClientCallsOf xs ++ newClientCallsOf ys := by
  induction xs with
  | nil => rfl
  | cons x xs ih => cases x <;> simp [newClientCallsOf, ih]

/-! ## newClient -/

/-- C1: whenever AuthURL, Username or Password is the empty string,
`newClient` returns the error `Missing AuthURL`, `Missing Username` or
`Missing Password` (for the first empty one in that order) together with a nil
region, and it causes no event at all: in particular neither the OpenStack
client constructor nor the region lookup is called. -/
theorem newClient_missing_credential (w : World) (options : BaseOptions)
    (h : options.AuthURL = "" ∨ options.Username = "" ∨ options.Password = "") :
    (newClient w options).err = some (.errorf
        (if options.AuthURL = "" then "Missing AuthURL"
         else if options.Username = "" then "Missing Username"
         else "Missing Password")) ∧
    (newClient w options).region = none ∧
    (newClient w options).trace = [] ∧
    ∀ ev ∈ (newClient w options).trace, ev.isClientCall = false := by
  by_cases ha : options.AuthURL = ""
  · simp [newClient, len_eq_zero_iff, ha]
  · by_cases hu : options.Username = ""
    · simp [newClient, len_eq_zero_iff, ha, hu]
    · have hp : options.Password = "" := by
        rcases h with h | h | h
        · exact absurd h ha
        · exact absurd h hu
        · exact h
      simp [newClient, len_eq_zero_iff, ha, hu, hp]

theorem newClient_missing_credential_witness :
    (noUsernameOptions.AuthURL = "" ∨ noUsernameOptions.Username = "" ∨
      noUsernameOptions.Password = "") ∧
    (newClient sampleWorld noUsernameOptions).err = some (.errorf "Missing Username") ∧
    (newClient sampleWorld noUsernameOptions).region = none ∧
    (newClient sampleWorld noUsernameOptions).trace = [] :=
  have h := newClient_missing_credential sampleWorld noUsernameOptions (by decide)
  ⟨by decide, h.1, h.2.1, h.2.2.1⟩

/-- C10: `newClient` never returns a nil region with a nil error.  It
succeeds exactly when AuthURL, Username and Password are non-empty, the
client constructor returns a client and the lookup of `options.RegionID` on
that client returns a region, and then the returned region is that lookup
result.  A constructor error is returned unchanged, a nil lookup result gives
the error `No such region <RegionID>`, and an empty Project does not make an
otherwise successful call fail. -/
theorem newClient_result (w : World) (options : BaseOptions) :
    ¬ ((newClient w options).region = none ∧ (newClient w options).err = none) ∧
    ((newClient w options).err = none ↔
      options.AuthURL ≠ "" ∧ options.Username ≠ "" ∧ options.Password ≠ "" ∧
      ∃ cli region, w.newOpenStackClient (clientConfig w options) = .ok cli ∧
        w.getRegion cli options.RegionID = some region) ∧
    (∀ cli region, options.AuthURL ≠ "" → options.Username ≠ "" → options.Password ≠ "" →
      w.newOpenStackClient (clientConfig w options) = .ok cli →
      w.getRegion cli options.RegionID = some region →
      (newClient w options).region = some region ∧ (newClient w options).err = none) ∧
    (∀ e, options.AuthURL ≠ "" → options.Username ≠ "" → options.Password ≠ "" →
      w.newOpenStackClient (clientConfig w options) = .error e →
      (newClient w options).region = none ∧ (newClient w options).err = some e) ∧
    (∀ cli, options.AuthURL ≠ "" → options.Username ≠ "" → options.Password ≠ "" →
      w.newOpenStackClient (clientConfig w options) = .ok cli →
      w.getRegion cli options.RegionID = none →
      (newClient w options).region = none ∧
      (newClient w options).err = some (.errorf ("No such region " ++ options.RegionID))) ∧
    (∀ cli region, options.Project = "" →
      options.AuthURL ≠ "" → options.Username ≠ "" → options.Password ≠ "" →
      w.newOpenStackClient (clientConfig w options) = .ok cli →
      w.getRegion cli options.RegionID = some region →
      (newClient w options).err = none) := by
  by_cases ha : options.AuthURL = ""
  · simp [newClient, len_eq_zero_iff, ha]
  by_cases hu : options.Username = ""
  · simp [newClient, len_eq_zero_iff, ha, hu]
  by_cases hp : options.Password = ""
  · simp [newClient, len_eq_zero_iff, ha, hu, hp]
  cases hc : w.newOpenStackClient (clientConfig w options) with
  | error e => simp [newClient, len_eq_zero_iff, ha, hu, hp, hc]
  | ok cli =>
    cases hr : w.getRegion cli options.RegionID with
    | none =>
      simp [newClient, len_eq_zero_iff, ha, hu, hp, hc, hr]
      refine ⟨?_, ?_⟩
      · intro c r hcc; subst hcc; simp [hr]
      · intro c r _ hcc; subst hcc; simp [hr]
    | some region =>
      simp [newClient, len_eq_zero_iff, ha, hu, hp, hc, hr]
      intro c r hcc hcr; subst hcc
      rw [hr] at hcr
      exact Option.some.inj hcr

theorem newClient_result_witness :
    (newClient sampleWorld { sampleOptions with RegionID := "RegionOne", Project := "" }).region
      = some ⟨9⟩ ∧
    (newClient sampleWorld { sampleOptions with RegionID := "RegionOne", Project := "" }).err
      = none ∧
    (newClient sampleWorld { sampleOptions with RegionID := "RegionTwo" }).err
      = some (.errorf "No such region RegionTwo") :=
  have h := (newClient_result sampleWorld
    { sampleOptions with RegionID := "RegionOne", Project := "" }).2.2.1 ⟨7⟩ ⟨9⟩
    (by decide) (by decide) (by decide) rfl (by decide)
  have h2 := (newClient_result sampleWorld
    { sampleOptions with RegionID := "RegionTwo" }).2.2.2.2.1 ⟨7⟩
    (by decide) (by decide) (by decide) rfl (by decide)
  ⟨h.1, h.2, h2.2⟩

theorem newClient_region_of_ok (w : World) (options : BaseOptions)
    (h : (newClient w options).err = none) : (newClient w options).region ≠ none := by
  unfold newClient at h ⊢
  repeat (first | split at h | simp at h)
  all_goals simp_all

theorem newClient_invocationsOf (w : World) (options : BaseOptions) :
    invocationsOf (newClient w options).trace = [] := by
  unfold newClient
  repeat (first | split | simp [invocationsOf])

theorem newClient_stderrOf (w : World) (options : BaseOptions) :
    stderrOf (newClient w options).trace = [] := by
  unfold newClient
  repeat (first | split | simp [stderrOf])

theorem newClient_stdoutOf (w : World) (options : BaseOptions) :
    stdoutOf (newClient w options).trace = [] := by
  unfold newClient
  repeat (first | split | simp [stdoutOf])

theorem newClient_newClientCallsOf (w : World) (options : BaseOptions) :
    newClientCallsOf (newClient w options).trace = [] := by
  unfold newClient
  repeat (first | split | simp [newClientCallsOf])

/-! ## main: the help flag and parse errors -/

/-- C7: when the bound Help flag is true after parsing, `main` prints the
top-level help string and returns; that print is its only event, so it never
asks for the sub-parser, never calls `newClient` and never invokes a
callback. -/
theorem main_help_flag (w : World)
    (hparser : getSubcommandParser w = none) (hhelp : w.options.Help = true) :
    (main w).trace = [.stdout w.helpString] ∧
    (main w).term = .returned ∧
    Event.getSubParser ∉ (main w).trace ∧
    newClientCallsOf (main w).trace = [] ∧
    invocationsOf (main w).trace = [] := by
  simp [main, hparser, hhelp, newClientCallsOf, invocationsOf]

theorem main_help_flag_witness :
    getSubcommandParser helpFlagWorld = none ∧ helpFlagWorld.options.Help = true ∧
    (main helpFlagWorld).trace = [.stdout "Command-line interface to openstack API."] ∧
    (main helpFlagWorld).term = .returned :=
  have h := main_help_flag helpFlagWorld (by decide) (by decide)
  ⟨by decide, by decide, h.1, h.2.1⟩

/-- C5, as stated, fails: in the run of `openstackcli --help` parsing returns
an error, yet the process ends with status 0 and nothing is written to the
error stream. -/
theorem help_flag_hides_parse_failure :
    getSubcommandParser helpFlagWorld = none ∧
    helpFlagWorld.parseArgs = some (.foreign 2 "Not enough arguments, missing SUBCOMMAND") ∧
    (main helpFlagWorld).term.exitCode = 0 ∧
    stderrOf (main helpFlagWorld).trace = [] ∧
    ¬ (∀ e, helpFlagWorld.parseArgs = some e →
        (main helpFlagWorld).term.exitCode = 1 ∧
        stderrOf (main helpFlagWorld).trace = [e.Error, "\n"]) := by
  refine ⟨by decide, by decide, by decide, by decide, ?_⟩
  intro h
  have h2 := (h _ rfl).1
  revert h2
  decide

/-- C5, amended: when `ParseArgs` returns an error and the bound Help flag is
false, the process exits with status 1 and the error stream receives the
error message followed by a newline. -/
theorem main_reports_parse_failure (w : World) (e : GoError)
    (hparser : getSubcommandParser w = none) (hparse : w.parseArgs = some e)
    (hhelp : w.options.Help = false) :
    (main w).term = .exited 1 ∧
    (main w).term.exitCode = 1 ∧
    stderrOf (main w).trace = [e.Error, "\n"] := by
  simp [main, hparser, hparse, hhelp, showErrorAndExit, stderrOf, Termination.exitCode]

theorem main_reports_parse_failure_witness :
    getSubcommandParser badFlagWorld = none ∧
    badFlagWorld.parseArgs = some (.foreign 4 "Unknown optional argument --bogus") ∧
    badFlagWorld.options.Help = false ∧
    (main badFlagWorld).term = .exited 1 ∧
    stderrOf (main badFlagWorld).trace = ["Unknown optional argument --bogus", "\n"] :=
  have h := main_reports_parse_failure badFlagWorld
    (.foreign 4 "Unknown optional argument --bogus") (by decide) (by decide) (by decide)
  ⟨by decide, by decide, by decide, h.1, h.2.2⟩

/-- C6: when parsing returns an error and the Help flag is false, `main`
asks for the sub-parser, prints the usage of the resolved sub-parser if there
is one and the top-level usage if there is none, then reports the error and
exits; `newClient` is not called, no callback is invoked and no call reaches
the client package. -/
theorem main_usage_on_parse_failure (w : World) (e : GoError)
    (hparser : getSubcommandParser w = none) (hparse : w.parseArgs = some e)
    (hhelp : w.options.Help = false) :
    (∀ sp, w.subparser = some sp →
      (main w).trace = [.getSubParser, .stdout sp.usage, .stderr e.Error, .stderr "\n"] ∧
      stdoutOf (main w).trace = [sp.usage]) ∧
    (w.subparser = none →
      (main w).trace = [.getSubParser, .stdout w.usage, .stderr e.Error, .stderr "\n"] ∧
      stdoutOf (main w).trace = [w.usage]) ∧
    (main w).term = .exited 1 ∧
    newClientCallsOf (main w).trace = [] ∧
    invocationsOf (main w).trace = [] ∧
    ∀ ev ∈ (main w).trace, ev.isClientCall = false := by
  refine ⟨?_, ?_, ?_, ?_, ?_, ?_⟩
  · intro sp hsp
    simp [main, hparser, hparse, hhelp, hsp, showErrorAndExit, stdoutOf]
  · intro hsp
    simp [main, hparser, hparse, hhelp, hsp, showErrorAndExit, stdoutOf]
  · simp [main, hparser, hparse, hhelp, showErrorAndExit]
  · simp [main, hparser, hparse, hhelp, showErrorAndExit, newClientCallsOf]
  · simp [main, hparser, hparse, hhelp, showErrorAndExit, invocationsOf]
  · simp [main, hparser, hparse, hhelp, showErrorAndExit, Event.isClientCall]

theorem main_usage_on_parse_failure_witness :
    getSubcommandParser bogusWorld = none ∧
    bogusWorld.parseArgs = some (.foreign 3 "Unknown subcommand bogus") ∧
    bogusWorld.options.Help = false ∧
    stdoutOf (main bogusWorld).trace = ["Usage: openstackcli <SUBCOMMAND>"] ∧
    newClientCallsOf (main bogusWorld).trace = [] ∧
    invocationsOf (main bogusWorld).trace = [] :=
  have h := main_usage_on_parse_failure bogusWorld
    (.foreign 3 "Unknown subcommand bogus") (by decide) (by decide) (by decide)
  ⟨by decide, by decide, by decide, (h.2.1 (by decide)).2, h.2.2.2.1, h.2.2.2.2.1⟩

/-! ## main: dispatch -/

/-- C3: when parsing succeeds, the Help flag is false and the subcommand name
is `help`, the subcommand is invoked once with the bound options only,
`newClient` is not called and no call reaches the client package, whatever
the credentials and the region are; the options object, RegionID included,
is as parsing left it. -/
theorem main_help_subcommand (w : World) (sp : SubParser)
    (hparser : getSubcommandParser w = none) (hparse : w.parseArgs = none)
    (hhelp : w.options.Help = false) (hcmd : w.options.SUBCOMMAND = "help")
    (hsub : w.subparser = some sp) :
    invocationsOf (main w).trace = [[.options sp.options]] ∧
    newClientCallsOf (main w).trace = [] ∧
    (∀ ev ∈ (main w).trace, ev.isClientCall = false) ∧
    (main w).options = some w.options ∧
    (main w).options.map (·.RegionID) = some w.options.RegionID := by
  cases hi : w.invoke [.options sp.options] <;>
    simp [main, hparser, hparse, hhelp, hcmd, hsub, hi, showErrorAndExit, invocationsOf,
      newClientCallsOf, Event.isClientCall]

theorem main_help_subcommand_witness :
    getSubcommandParser helpWorld = none ∧ helpWorld.parseArgs = none ∧
    helpWorld.options.Help = false ∧ helpWorld.options.SUBCOMMAND = "help" ∧
    helpWorld.options.AuthURL = "" ∧ helpWorld.options.RegionID = "" ∧
    invocationsOf (main helpWorld).trace = [[.options ⟨2⟩]] ∧
    newClientCallsOf (main helpWorld).trace = [] ∧
    (main helpWorld).options.map (·.RegionID) = some "" :=
  have h := main_help_subcommand helpWorld ⟨"Usage: openstackcli help <SUBCOMMAND>", ⟨2⟩⟩
    (by decide) (by decide) (by decide) (by decide) (by decide)
  ⟨by decide, by decide, by decide, by decide, by decide, by decide, h.1, h.2.1, h.2.2.2.2⟩

/-- The shape of `main` in a non-help dispatch, with the options handed to
`newClient` named `o`. -/
theorem dispatch_shape (w : World) (sp : SubParser) (o : BaseOptions)
    (hparser : getSubcommandParser w = none) (hparse : w.parseArgs = none)
    (hhelp : w.options.Help = false) (hcmd : w.options.SUBCOMMAND ≠ "help")
    (hsub : w.subparser = some sp)
    (ho : o = if w.options.RegionID = "" then
        { w.options with RegionID := w.OPENSTACK_DEFAULT_REGION } else w.options) :
    main w =
      match (newClient w o).err with
      | some e =>
        ⟨[.getSubParser, .newClient o] ++ (newClient w o).trace ++
          [.stderr e.Error, .stderr "\n"], .exited 1, some o⟩
      | none =>
        match w.invoke [.region (newClient w o).region, .options sp.options] with
        | some e =>
          ⟨[.getSubParser, .newClient o] ++ (newClient w o).trace ++
            [.invoke [.region (newClient w o).region, .options sp.options]] ++
            [.stderr e.Error, .stderr "\n"], .exited 1, some o⟩
        | none =>
          ⟨[.getSubParser, .newClient o] ++ (newClient w o).trace ++
            [.invoke [.region (newClient w o).region, .options sp.options]],
            .returned, some o⟩ := by
  have hh : ¬ (w.options.Help = true) := by simp [hhelp]
  have hc : ¬ ((w.options.SUBCOMMAND == "help") = true) := by simpa using hcmd
  have hl : (len w.options.RegionID == 0) = true ↔ w.options.RegionID = "" :=
    len_beq_zero_iff _
  unfold main
  simp only [hparser, hparse, hsub]
  rw [if_neg hh, if_neg hc]
  by_cases hr : w.options.RegionID = ""
  · rw [if_pos hr] at ho
    rw [if_pos (hl.2 hr), ← ho]
    rfl
  · rw [if_neg hr] at ho
    rw [if_neg (fun h => hr (hl.1 h)), ← ho]
    rfl

theorem dispatch_newClientCalls (w : World) (sp : SubParser) (o : BaseOptions)
    (hparser : getSubcommandParser w = none) (hparse : w.parseArgs = none)
    (hhelp : w.options.Help = false) (hcmd : w.options.SUBCOMMAND ≠ "help")
    (hsub : w.subparser = some sp)
    (ho : o = if w.options.RegionID = "" then
        { w.options with RegionID := w.OPENSTACK_DEFAULT_REGION } else w.options) :
    newClientCallsOf (main w).trace = [o] := by
  rw [dispatch_shape w sp o hparser hparse hhelp hcmd hsub ho]
  split
  · simp [newClientCallsOf_append, newClientCallsOf, newClient_newClientCallsOf]
  · split <;> simp [newClientCallsOf_append, newClientCallsOf, newClient_newClientCallsOf]

/-- C4: in a non-help dispatch `newClient` is called once, with the parsed
options in which RegionID is replaced by `OPENSTACK_DEFAULT_REGION` when the
parsed RegionID is empty and kept when it is not; every other field is the
parsed one. -/
theorem main_region_default (w : World) (sp : SubParser)
    (hparser : getSubcommandParser w = none) (hparse : w.parseArgs = none)
    (hhelp : w.options.Help = false) (hcmd : w.options.SUBCOMMAND ≠ "help")
    (hsub : w.subparser = some sp) :
    ∃ o, newClientCallsOf (main w).trace = [o] ∧
      (w.options.RegionID ≠ "" → o.RegionID = w.options.RegionID) ∧
      (w.options.RegionID = "" → o.RegionID = w.OPENSTACK_DEFAULT_REGION) ∧
      (o.RegionID ≠ w.options.RegionID → w.options.RegionID = "") ∧
      o = { w.options with RegionID := o.RegionID } := by
  refine ⟨_, dispatch_newClientCalls w sp _ hparser hparse hhelp hcmd hsub rfl, ?_⟩
  by_cases hr : w.options.RegionID = ""
  · rw [if_pos hr]
    exact ⟨fun h => absurd hr h, fun _ => rfl, fun _ => hr, rfl⟩
  · rw [if_neg hr]
    exact ⟨fun _ => rfl, fun h => absurd h hr, fun h => absurd rfl h, rfl⟩

theorem main_region_default_witness :
    getSubcommandParser sampleWorld = none ∧ sampleWorld.parseArgs = none ∧
    sampleWorld.options.Help = false ∧ sampleWorld.options.SUBCOMMAND ≠ "help" ∧
    sampleWorld.options.RegionID = "" ∧
    ∃ o, newClientCallsOf (main sampleWorld).trace = [o] ∧ o.RegionID = "RegionOne" ∧
      o = { sampleOptions with RegionID := o.RegionID } :=
  have h := main_region_default sampleWorld ⟨"Usage: openstackcli server-list", ⟨1⟩⟩
    (by decide) (by decide) (by decide) (by decide) (by decide)
  ⟨by decide, by decide, by decide, by decide, by decide,
    h.elim fun o ho => ⟨o, ho.1, ho.2.2.1 (by decide), ho.2.2.2.2⟩⟩

/-- C2: when parsing succeeds, the Help flag is false and the subcommand name
is not `help`, `newClient` is called once.  If it succeeds, the callback is
invoked exactly once, with the region `newClient` returned (which is not nil)
and the bound options of the sub-parser, and the process exits with status 1
and the callback's error message on the error stream if the callback returns
an error, and returns with status 0 and an empty error stream if it does not.
If `newClient` fails, no callback is invoked and the process exits with
status 1 and the message of the error of `newClient`. -/
theorem main_invokes_callback_once (w : World) (sp : SubParser)
    (hparser : getSubcommandParser w = none) (hparse : w.parseArgs = none)
    (hhelp : w.options.Help = false) (hcmd : w.options.SUBCOMMAND ≠ "help")
    (hsub : w.subparser = some sp) :
    ∃ o, newClientCallsOf (main w).trace = [o] ∧
      ((newClient w o).err = none →
        invocationsOf (main w).trace =
          [[.region (newClient w o).region, .options sp.options]] ∧
        (newClient w o).region ≠ none ∧
        ((main w).term.exitCode = 1 ↔
          ∃ e, w.invoke [.region (newClient w o).region, .options sp.options] = some e) ∧
        (∀ e, w.invoke [.region (newClient w o).region, .options sp.options] = some e →
          (main w).term = .exited 1 ∧ stderrOf (main w).trace = [e.Error, "\n"]) ∧
        (w.invoke [.region (newClient w o).region, .options sp.options] = none →
          (main w).term = .returned ∧ (main w).term.exitCode = 0 ∧
          stderrOf (main w).trace = [])) ∧
      (∀ e, (newClient w o).err = some e →
        invocationsOf (main w).trace = [] ∧
        (main w).term = .exited 1 ∧ (main w).term.exitCode = 1 ∧
        stderrOf (main w).trace = [e.Error, "\n"]) := by
  refine ⟨_, dispatch_newClientCalls w sp _ hparser hparse hhelp hcmd hsub rfl, ?_⟩
  rw [dispatch_shape w sp _ hparser hparse hhelp hcmd hsub rfl]
  generalize (if w.options.RegionID = "" then
    { w.options with RegionID := w.OPENSTACK_DEFAULT_REGION } else w.options) = o
  constructor
  · intro he
    have hreg : (newClient w o).region ≠ none := newClient_region_of_ok w o he
    rw [he]
    cases hi : w.invoke [.region (newClient w o).region, .options sp.options] with
    | some e =>
      simp [hreg, invocationsOf_append, invocationsOf, newClient_invocationsOf,
        stderrOf_append, stderrOf, newClient_stderrOf, Termination.exitCode]
    | none =>
      simp [hreg, invocationsOf_append, invocationsOf, newClient_invocationsOf,
        stderrOf_append, stderrOf, newClient_stderrOf, Termination.exitCode]
  · intro e he
    rw [he]
    simp [invocationsOf_append, invocationsOf, newClient_invocationsOf,
      stderrOf_append, stderrOf, newClient_stderrOf, Termination.exitCode]

theorem main_invokes_callback_once_witness :
    getSubcommandParser sampleWorld = none ∧ sampleWorld.parseArgs = none ∧
    sampleWorld.options.Help = false ∧ sampleWorld.options.SUBCOMMAND ≠ "help" ∧
    invocationsOf (main sampleWorld).trace = [[.region (some ⟨9⟩), .options ⟨1⟩]] ∧
    (main sampleWorld).term = .returned ∧
    stderrOf (main sampleWorld).trace = [] :=
  have h := main_invokes_callback_once sampleWorld ⟨"Usage: openstackcli server-list", ⟨1⟩⟩
    (by decide) (by decide) (by decide) (by decide) (by decide)
  ⟨by decide, by decide, by decide, by decide,
    h.elim fun o ho => by
      have hcalls : newClientCallsOf (main sampleWorld).trace =
          [{ sampleOptions with RegionID := "RegionOne" }] := by decide
      have ho1 : { sampleOptions with RegionID := "RegionOne" } = o :=
        List.head_eq_of_cons_eq (hcalls.symm.trans ho.1)
      subst ho1
      have hok := ho.2.1 (by decide)
      exact ⟨hok.1, (hok.2.2.2.2 (by decide)).1, (hok.2.2.2.2 (by decide)).2.2⟩⟩

/-! ## The help command -/

/-- C8: the callback of the `help` command asks the subcommand selector for
the help string of the named subcommand and does nothing else.  When the
lookup returns no error, it prints exactly the returned string and returns
nil; when the lookup returns an error, it prints nothing and returns that
error.  It invokes no callback and reaches neither `newClient` nor the
client package. -/
theorem helpCallback_spec (SubHelpString : String → String × Option GoError)
    (args : HelpOptions) :
    (∀ helpstr, SubHelpString args.SUBCOMMAND = (helpstr, none) →
      helpCallback SubHelpString args =
        ([.subHelpString args.SUBCOMMAND, .stdout helpstr], none)) ∧
    (∀ helpstr e, SubHelpString args.SUBCOMMAND = (helpstr, some e) →
      helpCallback SubHelpString args = ([.subHelpString args.SUBCOMMAND], some e) ∧
      stdoutOf (helpCallback SubHelpString args).1 = []) ∧
    invocationsOf (helpCallback SubHelpString args).1 = [] ∧
    newClientCallsOf (helpCallback SubHelpString args).1 = [] ∧
    ∀ ev ∈ (helpCallback SubHelpString args).1, ev.isClientCall = false := by
  unfold helpCallback
  rcases h : SubHelpString args.SUBCOMMAND with ⟨helpstr, _ | e⟩ <;>
    simp [stdoutOf, invocationsOf, newClientCallsOf, Event.isClientCall]

theorem helpCallback_spec_witness :
    helpCallback sampleWorld.subHelpString ⟨"server-list"⟩ =
      ([.subHelpString "server-list", .stdout "Usage: openstackcli server-list"], none) ∧
    helpCallback sampleWorld.subHelpString ⟨"bogus"⟩ =
      ([.subHelpString "bogus"], some (.foreign 1 "No such command")) :=
  ⟨(helpCallback_spec sampleWorld.subHelpString ⟨"server-list"⟩).1 _ (by decide),
    ((helpCallback_spec sampleWorld.subHelpString ⟨"bogus"⟩).2.1 "" _ (by decide)).1⟩

/-! ## Default values -/

theorem resolveDefaultSpec_defaultSpec (env : String → Option String) (f : Field) :
    resolveDefaultSpec env f.defaultSpec =
      match env f.metavar with
      | some v =>
        if v = "" then
          (match f with
            | .EndpointType => "internal"
            | .DomainName => "Default"
            | .ProjectDomain => "Default"
            | _ => "")
        else v
      | none =>
        (match f with
          | .EndpointType => "internal"
          | .DomainName => "Default"
          | .ProjectDomain => "Default"
          | _ => "") := by
  cases f <;> rfl

/-- C9: the declared default-specs of EndpointType, DomainName and
ProjectDomain are `$OPENSTACK_ENDPOINT_TYPE|internal`,
`$OPENSTACK_DOMAIN_NAME|Default` and `$OPENSTACK_PROJECT_DOMAIN|Default`;
resolved by the documented rule they give the fallback when the variable is
unset or empty and the value of the variable when it is set and non-empty.
The specs of AuthURL, Username, Password, Project and RegionID have no
fallback and resolve to the empty string when their variable is unset or
empty. -/
theorem defaultSpec_resolution (env : String → Option String) :
    (∀ f var fallback,
      (f, var, fallback) ∈
        [(Field.EndpointType, "OPENSTACK_ENDPOINT_TYPE", "internal"),
         (Field.DomainName, "OPENSTACK_DOMAIN_NAME", "Default"),
         (Field.ProjectDomain, "OPENSTACK_PROJECT_DOMAIN", "Default")] →
      f.defaultSpec = "$" ++ var ++ "|" ++ fallback ∧
      (env var = none ∨ env var = some "" →
        resolveDefaultSpec env f.defaultSpec = fallback) ∧
      (∀ x, x ≠ "" → env var = some x → resolveDefaultSpec env f.defaultSpec = x)) ∧
    (∀ f var,
      (f, var) ∈
        [(Field.AuthURL, "OPENSTACK_AUTH_URL"),
         (Field.Username, "OPENSTACK_USERNAME"),
         (Field.Password, "OPENSTACK_PASSWORD"),
         (Field.Project, "OPENSTACK_PROJECT"),
         (Field.RegionID, "OPENSTACK_REGION_ID")] →
      f.defaultSpec = "$" ++ var ∧
      (env var = none ∨ env var = some "" →
        resolveDefaultSpec env f.defaultSpec = "")) := by
  constructor
  · intro f var fallback hmem
    simp only [List.mem_cons, Prod.mk.injEq, List.mem_singleton, List.not_mem_nil,
      or_false] at hmem
    rcases hmem with ⟨rfl, rfl, rfl⟩ | ⟨rfl, rfl, rfl⟩ | ⟨rfl, rfl, rfl⟩ <;>
      (refine ⟨by decide, ?_, ?_⟩
       · rintro (h | h) <;> rw [resolveDefaultSpec_defaultSpec] <;>
           simp [Field.metavar, h]
       · intro x hx h
         rw [resolveDefaultSpec_defaultSpec]
         simp [Field.metavar, h, hx])
  · intro f var hmem
    simp only [List.mem_cons, Prod.mk.injEq, List.mem_singleton, List.not_mem_nil,
      or_false] at hmem
    rcases hmem with ⟨rfl, rfl⟩ | ⟨rfl, rfl⟩ | ⟨rfl, rfl⟩ | ⟨rfl, rfl⟩ | ⟨rfl, rfl⟩ <;>
      (refine ⟨by decide, ?_⟩
       rintro (h | h) <;> rw [resolveDefaultSpec_defaultSpec] <;>
         simp [Field.metavar, h])

theorem defaultSpec_resolution_witness :
    resolveDefaultSpec sampleEnv "$OPENSTACK_DOMAIN_NAME|Default" = "corp" ∧
    resolveDefaultSpec sampleEnv "$OPENSTACK_ENDPOINT_TYPE|internal" = "internal" ∧
    resolveDefaultSpec sampleEnv "$OPENSTACK_REGION_ID" = "" :=
  have h := defaultSpec_resolution sampleEnv
  ⟨(h.1 .DomainName "OPENSTACK_DOMAIN_NAME" "Default" (by decide)).2.2 "corp"
      (by decide) (by decide),
    (h.1 .EndpointType "OPENSTACK_ENDPOINT_TYPE" "internal" (by decide)).2.1
      (Or.inl (by decide)),
    (h.2 .RegionID "OPENSTACK_REGION_ID" (by decide)).2 (Or.inl (by decide))⟩

end OpenstackCli
